import Mathlib

/-!
Shallow embedding of `src/vs/editor/common/languages/supports/indentationLineProcessor.ts`.

The file under verification processes tokenized editor lines before they are fed to a
regex-based indentation-rule evaluator: it removes the language-configuration bracket
strings from tokens classified as string, comment or regex, extracts scope-correct
context around a range, and wraps the external indent-rule evaluator.

Strings are modelled as Lean `String` (a list of characters); JavaScript's
`String.prototype.replace` with a global regex built from an escaped literal is modelled
by literal left-to-right non-overlapping removal (see `regexReplaceGlobalEmpty`).
-/

/-- Models `StandardTokenType` from `vs/editor/common/encodedTokenAttributes`:
the classification of a token (Other, Comment, String, RegEx). -/
inductive StandardTokenType where
  | Other
  | Comment
  | String
  | RegEx
deriving DecidableEq, BEq

/-- Models one token of a line token stream (`IViewLineTokens` at one index):
its text, its standard token type and its language id. -/
structure Token where
  text : String
  tokenType : StandardTokenType
  languageId : String
deriving DecidableEq, BEq

/-- Models `tokens.getLanguageId(0)`: the language id of the token at index 0.
An empty stream yields the empty language id. -/
def firstLanguageId (tokens : List Token) : String :=
  match tokens with
  | [] => ""
  | token :: _ => token.languageId

/-- Models `tokens.getLineContent()`: the concatenation of the token texts. -/
def lineContent (tokens : List Token) : String :=
  String.join (tokens.map (fun token => token.text))

/-- Models one entry of `RichEditBrackets.brackets` (`RichEditBracket`): a bracket pair
with its alternative open spellings (`open`) and close spellings (`close`). -/
structure RichEditBracket where
  openStrings : List String
  closeStrings : List String
deriving DecidableEq, BEq

/-- Models `RichEditBrackets`, the value of
`languageConfigurationService.getLanguageConfiguration(languageId).brackets`. -/
structure RichEditBrackets where
  brackets : List RichEditBracket
deriving DecidableEq, BEq

/-- Models `brackets.brackets.map((brackets) => brackets.open).flat()`. -/
def openBracketsOf (brackets : RichEditBrackets) : List String :=
  (brackets.brackets.map (fun bracket => bracket.openStrings)).flatten

/-- Models `brackets.brackets.map((brackets) => brackets.close).flat()`. -/
def closedBracketsOf (brackets : RichEditBrackets) : List String :=
  (brackets.brackets.map (fun bracket => bracket.closeStrings)).flatten

/-- Models the utility `isTokenTypeToProcess` of `getProcessedLineForTokens`:
`tokenType === String || tokenType === RegEx || tokenType === Comment`. -/
def isTokenTypeToProcess (tokenType : StandardTokenType) : Bool :=
  tokenType == StandardTokenType.String
    || tokenType == StandardTokenType.RegEx
    || tokenType == StandardTokenType.Comment

/-- The character class `[.*+?^${}()|[\]\\]` used by `escapeCharacterForRegex`:
the regex metacharacters that must be escaped to be matched literally. -/
def isRegexMeta (character : Char) : Bool :=
  character == '.' || character == '*' || character == '+' || character == '?'
    || character == '^' || character == '$' || character == '\x7b' || character == '\x7d'
    || character == '(' || character == ')' || character == '|' || character == '['
    || character == ']' || character == '\\'

/-- Models the utility `escapeCharacterForRegex`:
`character.replace(/[.*+?^${}()|[\]\\]/g, '\\$&')` on a single character. -/
def escapeCharacterForRegex (character : Char) : List Char :=
  if isRegexMeta character then ['\\', character] else [character]

/-- Character-list form of `escapeStringForRegex`: escape each character in order. -/
def escapeChars : List Char → List Char
  | [] => []
  | chr :: rest => escapeCharacterForRegex chr ++ escapeChars rest

/-- Models the utility `escapeStringForRegex`: the concatenation of the escaped
characters of the text. -/
def escapeStringForRegex (text : String) : String :=
  String.mk (escapeChars text.toList)

/-- Reads a regex pattern source that denotes a pure character literal: ordinary
characters stand for themselves and a backslash followed by a metacharacter stands for
that metacharacter. Returns `none` when the pattern is not such a pure literal
(an unescaped metacharacter, a trailing backslash, or an escape whose meaning is a
character class rather than a literal). -/
def decodeLiteralPattern : List Char → Option (List Char)
  | [] => some []
  | chr :: rest =>
    if chr == '\\' then
      match rest with
      | [] => none
      | escaped :: rest2 =>
        if isRegexMeta escaped then
          (decodeLiteralPattern rest2).map (fun lit => escaped :: lit)
        else
          none
    else if isRegexMeta chr then
      none
    else
      (decodeLiteralPattern rest).map (fun lit => chr :: lit)

/-- Decidable occurrence test: does `pat` occur as a contiguous substring of `s`? -/
def occursIn (pat : List Char) : List Char → Bool
  | [] => pat.isEmpty
  | chr :: rest => pat.isPrefixOf (chr :: rest) || occursIn pat rest

/-- Left-to-right scan removing the non-overlapping occurrences of `pat`.
The counter is the number of characters of an already-recognised occurrence that remain
to be skipped; at counter zero, a match consumes the matched characters and the scan
resumes after them, exactly as a JavaScript global-regex replace resumes at the end of
the previous match. -/
def removeAllOccAux (pat : List Char) : Nat → List Char → List Char
  | _, [] => []
  | Nat.succ remaining, _ :: rest => removeAllOccAux pat remaining rest
  | 0, chr :: rest =>
    if pat.isPrefixOf (chr :: rest) then
      removeAllOccAux pat (pat.length - 1) rest
    else
      chr :: removeAllOccAux pat 0 rest

/-- Removal of every non-overlapping occurrence of `pat` from `s`, leftmost first.
An empty pattern removes nothing (a global empty regex matches only empty substrings,
so replacing them by the empty string is the identity). -/
def removeAllOcc (pat s : List Char) : List Char :=
  if pat.isEmpty then s else removeAllOccAux pat 0 s

/-- Models `line.replace(new RegExp(pattern, 'g'), '')` for the patterns this file
builds: a pattern that is a pure character literal (see `decodeLiteralPattern`) denotes
removal of its non-overlapping literal occurrences; patterns that are not pure literals
are never produced by `removeBracketsFromText` and pass the line through unchanged. -/
def regexReplaceGlobalEmpty (pattern : String) (line : String) : String :=
  match decodeLiteralPattern pattern.toList with
  | some lit => String.mk (removeAllOcc lit line.toList)
  | none => line

/-- Models the utility `removeBracketsFromText` of `getProcessedLineForTokens`:
for each open bracket then each closed bracket, replace its escaped global regex by the
empty string, each pass operating on the output of the previous pass. -/
def removeBracketsFromText (openBrackets closedBrackets : List String) (line : String) : String :=
  let afterOpen := openBrackets.foldl
    (fun processedLine bracket => regexReplaceGlobalEmpty (escapeStringForRegex bracket) processedLine)
    line
  closedBrackets.foldl
    (fun processedLine bracket => regexReplaceGlobalEmpty (escapeStringForRegex bracket) processedLine)
    afterOpen

/-- Models `IndentationLineProcessor.getProcessedLineForTokens`. The language
configuration service is modelled by the function `config` giving the `brackets` field
of each language's configuration. -/
def getProcessedLineForTokens (config : String → Option RichEditBrackets)
    (tokens : List Token) : String :=
  match config (firstLanguageId tokens) with
  | none => lineContent tokens
  | some brackets =>
    String.join (tokens.map (fun token =>
      if isTokenTypeToProcess token.tokenType then
        removeBracketsFromText (openBracketsOf brackets) (closedBracketsOf brackets) token.text
      else
        token.text))

/-- Models `strings.getLeadingWhitespace` from `vs/base/common/strings`: the longest
leading run of spaces and tabs. -/
def getLeadingWhitespace (str : String) : String :=
  String.mk (str.toList.takeWhile (fun chr => chr == ' ' || chr == '\t'))

/-- Models the utility `adjustIndentation` of `getProcessedLine`:
`newIndentation + line.substring(currentIndentation.length)` where `currentIndentation`
is the leading whitespace of `line`. -/
def adjustIndentation (line : String) (newIndentation : String) : String :=
  newIndentation ++ String.mk (line.toList.drop (getLeadingWhitespace line).length)

/-- Models `IndentationLineProcessor.getProcessedLine`. The virtual model's
`tokenization.getLineTokens` is modelled by the function `getLineTokens`. -/
def getProcessedLine (config : String → Option RichEditBrackets)
    (getLineTokens : Nat → List Token) (lineNumber : Nat)
    (newIndentation : Option String) : String :=
  let processedLine := getProcessedLineForTokens config (getLineTokens lineNumber)
  match newIndentation with
  | some indentation => adjustIndentation processedLine indentation
  | none => processedLine

/-- Models the external rule evaluator `IndentRulesSupport` from
`vs/editor/common/languages/supports/indentRules`: four boolean predicates over a
processed line string. -/
structure IndentRulesSupport where
  shouldIncrease : String → Bool
  shouldDecrease : String → Bool
  shouldIgnore : String → Bool
  shouldIndentNextLine : String → Bool

/-- Models `ProcessedIndentRulesSupport`: the wrapped rule evaluator together with the
data its `IndentationLineProcessor` was constructed from (the virtual model's
tokenization and the language configuration service). -/
structure ProcessedIndentRulesSupport where
  indentRulesSupport : IndentRulesSupport
  config : String → Option RichEditBrackets
  getLineTokens : Nat → List Token

/-- Models `ProcessedIndentRulesSupport.shouldIncrease`. -/
def ProcessedIndentRulesSupport.shouldIncrease (p : ProcessedIndentRulesSupport)
    (lineNumber : Nat) (newIndentation : Option String) : Bool :=
  let processedLine := getProcessedLine p.config p.getLineTokens lineNumber newIndentation
  p.indentRulesSupport.shouldIncrease processedLine

/-- Models `ProcessedIndentRulesSupport.shouldDecrease`. -/
def ProcessedIndentRulesSupport.shouldDecrease (p : ProcessedIndentRulesSupport)
    (lineNumber : Nat) (newIndentation : Option String) : Bool :=
  let processedLine := getProcessedLine p.config p.getLineTokens lineNumber newIndentation
  p.indentRulesSupport.shouldDecrease processedLine

/-- Models `ProcessedIndentRulesSupport.shouldIgnore`. -/
def ProcessedIndentRulesSupport.shouldIgnore (p : ProcessedIndentRulesSupport)
    (lineNumber : Nat) (newIndentation : Option String) : Bool :=
  let processedLine := getProcessedLine p.config p.getLineTokens lineNumber newIndentation
  p.indentRulesSupport.shouldIgnore processedLine

/-- Models `ProcessedIndentRulesSupport.shouldIndentNextLine`. -/
def ProcessedIndentRulesSupport.shouldIndentNextLine (p : ProcessedIndentRulesSupport)
    (lineNumber : Nat) (newIndentation : Option String) : Bool :=
  let processedLine := getProcessedLine p.config p.getLineTokens lineNumber newIndentation
  p.indentRulesSupport.shouldIndentNextLine processedLine

/-- Modelled from the spec: the `ScopedLineTokens` value produced by the external scope
resolver (`createScopedLineTokens` is not part of this repository fragment) — per §6 it
carries `firstCharOffset`, the language id, the scoped content (`getLineContent`), and
whether the scope starts at column 0. -/
structure ScopedLineTokens where
  firstCharOffset : Nat
  languageId : String
  lineContent : String
deriving DecidableEq, BEq

/-- Modelled from the spec: `scopedLineTokens.doesScopeStartAtOffsetZero()` — whether
the embedded-language region begins at column 0 of its line, i.e. whether its first
character offset is zero. -/
def ScopedLineTokens.doesScopeStartAtOffsetZero (s : ScopedLineTokens) : Bool :=
  s.firstCharOffset == 0

/-- Modelled from the spec: the `Range` abstraction of §3 — a span over 1-based
(line, column) pairs; collapsed (start equals end) ranges represent a caret. The
`Range` class itself is not part of this repository fragment. -/
structure Range where
  startLineNumber : Nat
  startColumn : Nat
  endLineNumber : Nat
  endColumn : Nat
deriving DecidableEq, BEq

/-- Modelled from the spec: `range.isEmpty()` — the range is collapsed, start equals
end. -/
def Range.isEmpty (r : Range) : Bool :=
  r.startLineNumber == r.endLineNumber && r.startColumn == r.endColumn

/-- Modelled from the spec: `lineTokens.sliceAndInflate(first, last, 0)` — §6 requires
slicing a character sub-range `[first, last)` of a line's token stream into a new token
stream preserving classifications; tokens are clipped to the sub-range and tokens left
without text are dropped. The slicing class is not part of this repository fragment. -/
def sliceTokens : List Token → Nat → Nat → List Token
  | [], _, _ => []
  | token :: rest, first, lastOffset =>
    let len := token.text.toList.length
    let piece := (token.text.toList.take lastOffset).drop first
    let tail := sliceTokens rest (first - len) (lastOffset - len)
    if piece.isEmpty then tail
    else { token with text := String.mk piece } :: tail

/-- Modelled from the spec: the external collaborators of the context processor (§6) —
the tokenizer (`getLineTokens`, `getLineMaxColumn`; `forceTokenization` is a side
effect only and has no observable content here), the scope resolver
(`createScopedLineTokens`, taking a token stream and a 0-based column offset), and the
language-configuration registry (the `brackets` of each language id). -/
structure ModelCtx where
  getLineTokens : Nat → List Token
  getLineMaxColumn : Nat → Nat
  createScopedLineTokens : List Token → Nat → ScopedLineTokens
  config : String → Option RichEditBrackets

/-- Models `IndentationContextProcessor._getProcessedTextBeforeRange`. -/
def getProcessedTextBeforeRange (m : ModelCtx) (r : Range)
    (scopedLineTokens : ScopedLineTokens) : String :=
  let lineTokens := m.getLineTokens r.startLineNumber
  let columnIndexWithinScope := (r.startColumn - 1) - scopedLineTokens.firstCharOffset
  let firstCharacterOffset := scopedLineTokens.firstCharOffset
  let lastCharacterOffset := scopedLineTokens.firstCharOffset + columnIndexWithinScope
  getProcessedLineForTokens m.config
    (sliceTokens lineTokens firstCharacterOffset lastCharacterOffset)

/-- Models `IndentationContextProcessor._getProcessedTextAfterRange`: a collapsed range
reads the start line at the start column, a non-collapsed range reads the end line at
the end column; in both cases the slice extends to the end of the scope's content. -/
def getProcessedTextAfterRange (m : ModelCtx) (r : Range)
    (scopedLineTokens : ScopedLineTokens) : String :=
  let columnIndexWithinScope :=
    if r.isEmpty then (r.startColumn - 1) - scopedLineTokens.firstCharOffset
    else (r.endColumn - 1) - scopedLineTokens.firstCharOffset
  let lineTokens :=
    if r.isEmpty then m.getLineTokens r.startLineNumber
    else m.getLineTokens r.endLineNumber
  let scopedLineContent := scopedLineTokens.lineContent
  let firstCharacterOffset := scopedLineTokens.firstCharOffset + columnIndexWithinScope
  let lastCharacterOffset := scopedLineTokens.firstCharOffset + scopedLineContent.length
  getProcessedLineForTokens m.config
    (sliceTokens lineTokens firstCharacterOffset lastCharacterOffset)

/-- Models `IndentationContextProcessor._getProcessedPreviousLine`: empty unless the
previous line exists, the scope starts at offset zero and the language continues on the
previous line; otherwise the previous line's tokens sliced to the previous-line scope's
span, processed. -/
def getProcessedPreviousLine (m : ModelCtx) (r : Range)
    (scopedLineTokens : ScopedLineTokens) : String :=
  let previousLineNumber := r.startLineNumber - 1
  if previousLineNumber == 0 then ""
  else if !scopedLineTokens.doesScopeStartAtOffsetZero then ""
  else
    let scopedLineTokensAtEndColumnOfPreviousLine :=
      m.createScopedLineTokens (m.getLineTokens previousLineNumber)
        (m.getLineMaxColumn previousLineNumber - 1)
    if !(scopedLineTokens.languageId == scopedLineTokensAtEndColumnOfPreviousLine.languageId) then ""
    else
      getProcessedLineForTokens m.config
        (sliceTokens (m.getLineTokens previousLineNumber)
          scopedLineTokensAtEndColumnOfPreviousLine.firstCharOffset
          (scopedLineTokensAtEndColumnOfPreviousLine.firstCharOffset
            + scopedLineTokensAtEndColumnOfPreviousLine.lineContent.length))

/-- The record returned by `getProcessedContextAroundRange`. -/
structure ProcessedContext where
  beforeRangeText : String
  afterRangeText : String
  previousLineText : String
deriving DecidableEq, BEq

/-- Models `IndentationContextProcessor.getProcessedContextAroundRange`: resolve the
scope at the range start and assemble the three processed fragments. -/
def getProcessedContextAroundRange (m : ModelCtx) (r : Range) : ProcessedContext :=
  let lineTokens := m.getLineTokens r.startLineNumber
  let scopedLineTokens := m.createScopedLineTokens lineTokens (r.startColumn - 1)
  { beforeRangeText := getProcessedTextBeforeRange m r scopedLineTokens
    afterRangeText := getProcessedTextAfterRange m r scopedLineTokens
    previousLineText := getProcessedPreviousLine m r scopedLineTokens }

/-- The list of bracket strings configured for a language id: open then close spellings,
empty when the language has no bracket configuration. -/
def configuredBrackets (config : String → Option RichEditBrackets)
    (languageId : String) : List String :=
  match config languageId with
  | none => []
  | some brackets => openBracketsOf brackets ++ closedBracketsOf brackets

/-- A demonstration bracket configuration: the pairs ( ) and [ ]. -/
def demoBrackets : RichEditBrackets :=
  ⟨[⟨["("], [")"]⟩, ⟨["["], ["]"]⟩]⟩

/-- A demonstration language-configuration lookup: the language id "demo" has
`demoBrackets`; every other language id has no bracket configuration. -/
def demoConfig : String → Option RichEditBrackets :=
  fun languageId => if languageId == "demo" then some demoBrackets else none

/-- A demonstration line 1: a string token containing an open bracket, then an
other-classified close bracket; line content is the three characters ( x ). -/
def demoLine1 : List Token :=
  [⟨"(x", StandardTokenType.String, "demo"⟩, ⟨")", StandardTokenType.Other, "demo"⟩]

/-- A demonstration line 2: one string token whose text contains an open bracket. -/
def demoLine2 : List Token :=
  [⟨"y(z", StandardTokenType.String, "demo"⟩]

/-- A demonstration context: two tokenized lines of the "demo" language, whose scope
resolver always yields the whole line as one scope of the first token's language. -/
def demoCtx : ModelCtx :=
  { getLineTokens := fun lineNumber =>
      if lineNumber == 1 then demoLine1 else if lineNumber == 2 then demoLine2 else []
    getLineMaxColumn := fun lineNumber =>
      if lineNumber == 1 then 4 else if lineNumber == 2 then 4 else 1
    createScopedLineTokens := fun tokens _ =>
      ⟨0, firstLanguageId tokens, lineContent tokens⟩
    config := demoConfig }

/-- A demonstration caret range at line 2, column 1. -/
def demoRange : Range := ⟨2, 1, 2, 1⟩

/-- A demonstration selection range on line 1, columns 2 to 3. -/
def demoSelectionRange : Range := ⟨1, 2, 1, 3⟩

/-- The scope the demonstration resolver yields at the start of `demoRange`. -/
def demoScopeLine2 : ScopedLineTokens := ⟨0, "demo", "y(z"⟩

/-- The scope the demonstration resolver yields on line 1. -/
def demoScopeLine1 : ScopedLineTokens := ⟨0, "demo", "(x)"⟩

/-- A demonstration line of the unconfigured language "plain" containing brackets. -/
def plainLine : List Token :=
  [⟨"a[", StandardTokenType.String, "plain"⟩, ⟨"]", StandardTokenType.Other, "plain"⟩]

/-- A demonstration stream headed by the unconfigured language "plain" whose second
token is a bracketed string token of the configured language "demo". -/
def plainThenDemoLine : List Token :=
  [⟨"a", StandardTokenType.Other, "plain"⟩, ⟨"(b)", StandardTokenType.String, "demo"⟩]

/-- A demonstration "demo"-language line whose string token contains no configured
bracket; the open bracket sits in an other-classified token. -/
def noBracketInLiteralLine : List Token :=
  [⟨"ab", StandardTokenType.String, "demo"⟩, ⟨"(", StandardTokenType.Other, "demo"⟩]

/-- A demonstration tokenization whose only line is the raw text `(  foo` as one string
token: its processed form `  foo` gains leading whitespace the raw line does not have. -/
def indentDemoTokens : Nat → List Token :=
  fun _ => [⟨"(  foo", StandardTokenType.String, "demo"⟩]

theorem mk_toList (s : String) : String.mk s.toList = s := rfl

theorem decode_escapeChars (l : List Char) : decodeLiteralPattern (escapeChars l) = some l := by
  induction l with
  | nil => rfl
  | cons chr rest ih =>
    by_cases hmeta : isRegexMeta chr = true
    · simp [escapeChars, escapeCharacterForRegex, hmeta, decodeLiteralPattern, ih]
    · have hne : chr ≠ '\\' := by
        intro hcontra
        rw [hcontra] at hmeta
        exact hmeta (by decide)
      rw [escapeChars, escapeCharacterForRegex, if_neg hmeta, List.singleton_append,
        decodeLiteralPattern.eq_def]
      simp [hne, hmeta, ih]

theorem regexReplace_escape (bracket line : String) :
    regexReplaceGlobalEmpty (escapeStringForRegex bracket) line
      = String.mk (removeAllOcc bracket.toList line.toList) := by
  unfold regexReplaceGlobalEmpty escapeStringForRegex
  rw [show (String.mk (escapeChars bracket.toList)).toList = escapeChars bracket.toList from rfl]
  rw [decode_escapeChars]

theorem removeAllOccAux_id (pat : List Char) (s : List Char)
    (h : occursIn pat s = false) : removeAllOccAux pat 0 s = s := by
  induction s with
  | nil => rfl
  | cons chr rest ih =>
    rw [occursIn, Bool.or_eq_false_iff] at h
    rw [removeAllOccAux, if_neg (by simp [h.1]), ih h.2]

theorem removeAllOcc_id (pat : List Char) (s : List Char)
    (h : occursIn pat s = false) : removeAllOcc pat s = s := by
  unfold removeAllOcc
  by_cases hp : pat.isEmpty
  · rw [if_pos hp]
  · rw [if_neg hp, removeAllOccAux_id pat s h]

theorem foldl_regexReplace_id (bs : List String) (line : String)
    (h : ∀ b ∈ bs, occursIn b.toList line.toList = false) :
    bs.foldl (fun processedLine bracket =>
      regexReplaceGlobalEmpty (escapeStringForRegex bracket) processedLine) line = line := by
  induction bs with
  | nil => rfl
  | cons b rest ih =>
    have hstep : regexReplaceGlobalEmpty (escapeStringForRegex b) line = line := by
      rw [regexReplace_escape, removeAllOcc_id _ _ (h b (by simp)), mk_toList]
    rw [List.foldl_cons, hstep]
    exact ih (fun b' hb' => h b' (by simp [hb']))

theorem removeBracketsFromText_id (openBrackets closedBrackets : List String) (line : String)
    (h : ∀ b ∈ openBrackets ++ closedBrackets, occursIn b.toList line.toList = false) :
    removeBracketsFromText openBrackets closedBrackets line = line := by
  unfold removeBracketsFromText
  rw [foldl_regexReplace_id openBrackets line (fun b hb => h b (List.mem_append_left _ hb))]
  exact foldl_regexReplace_id closedBrackets line (fun b hb => h b (List.mem_append_right _ hb))

theorem getProcessedLineForTokens_config_none (config : String → Option RichEditBrackets)
    (tokens : List Token) (h : config (firstLanguageId tokens) = none) :
    getProcessedLineForTokens config tokens = lineContent tokens := by
  unfold getProcessedLineForTokens
  rw [h]

theorem getProcessedLineForTokens_config_some (config : String → Option RichEditBrackets)
    (tokens : List Token) (brackets : RichEditBrackets)
    (h : config (firstLanguageId tokens) = some brackets) :
    getProcessedLineForTokens config tokens
      = String.join (tokens.map (fun token =>
          if isTokenTypeToProcess token.tokenType then
            removeBracketsFromText (openBracketsOf brackets) (closedBracketsOf brackets)
              token.text
          else
            token.text)) := by
  unfold getProcessedLineForTokens
  rw [h]

/-- C1: for every token stream whose first token's language has a configured bracket
set, `getProcessedLineForTokens` is the concatenation, in original token order, of each
token's text, where tokens classified String, Comment or RegEx contribute their text
with every configured open and close bracket string removed, and tokens of every other
classification contribute their text verbatim. -/
theorem sanitize_tokenwise_concatenation (config : String → Option RichEditBrackets)
    (tokens : List Token) (brackets : RichEditBrackets)
    (h : config (firstLanguageId tokens) = some brackets) :
    getProcessedLineForTokens config tokens
      = String.join (tokens.map (fun token =>
          if isTokenTypeToProcess token.tokenType then
            removeBracketsFromText (openBracketsOf brackets) (closedBracketsOf brackets)
              token.text
          else
            token.text)) :=
  getProcessedLineForTokens_config_some config tokens brackets h

/-- Witness for C1: the demonstration line whose string token holds an open bracket and
whose other-classified token holds a close bracket; only the former is stripped. -/
theorem sanitize_tokenwise_concatenation_witness :
    demoConfig (firstLanguageId demoLine1) = some demoBrackets
      ∧ getProcessedLineForTokens demoConfig demoLine1
          = String.join (demoLine1.map (fun token =>
              if isTokenTypeToProcess token.tokenType then
                removeBracketsFromText (openBracketsOf demoBrackets)
                  (closedBracketsOf demoBrackets) token.text
              else
                token.text)) :=
  ⟨by decide, sanitize_tokenwise_concatenation demoConfig demoLine1 demoBrackets (by decide)⟩

/-- C4: for every token stream whose first token's language id has no bracket
configuration, `getProcessedLineForTokens` returns exactly the stream's raw
concatenated line content, with no transformation of any token. -/
theorem sanitize_passthrough_without_brackets (config : String → Option RichEditBrackets)
    (tokens : List Token) (h : config (firstLanguageId tokens) = none) :
    getProcessedLineForTokens config tokens = lineContent tokens :=
  getProcessedLineForTokens_config_none config tokens h

/-- Witness for C4: a "plain"-language line keeps its bracket characters, even inside
its string token, because "plain" has no bracket configuration. -/
theorem sanitize_passthrough_without_brackets_witness :
    demoConfig (firstLanguageId plainLine) = none
      ∧ getProcessedLineForTokens demoConfig plainLine = lineContent plainLine :=
  ⟨by decide, sanitize_passthrough_without_brackets demoConfig plainLine (by decide)⟩

/-- C5: bracket removal is progressive on a single mutating string — it is the fold of
single-bracket removal over the open brackets followed by the close brackets, each pass
operating on the previous pass's output — so an occurrence exposed by an earlier
removal is removed by a later pass: removing the open bracket "ab" from "cabd" exposes
"cd", which the close-bracket pass then removes, leaving the empty string. -/
theorem removeBrackets_progressive_order :
    (∀ (openBrackets closedBrackets : List String) (line : String),
      removeBracketsFromText openBrackets closedBrackets line
        = (openBrackets ++ closedBrackets).foldl
            (fun processedLine bracket =>
              regexReplaceGlobalEmpty (escapeStringForRegex bracket) processedLine)
            line)
      ∧ removeBracketsFromText ["ab"] ["cd"] "cabd" = "" := by
  constructor
  · intro openBrackets closedBrackets line
    rw [List.foldl_append]
    rfl
  · decide

/-- C6: for every bracket string, including ones containing regex metacharacters, the
escaped pattern reads back as the pure character literal equal to the bracket string,
so the replacement performed by `removeBracketsFromText` removes exactly the literal
character-for-character occurrences of the bracket, with no metacharacter
interpretation. -/
theorem bracket_escaping_literal_removal (bracket : String) :
    decodeLiteralPattern (escapeStringForRegex bracket).toList = some bracket.toList
      ∧ ∀ line : String,
          regexReplaceGlobalEmpty (escapeStringForRegex bracket) line
            = String.mk (removeAllOcc bracket.toList line.toList) :=
  ⟨decode_escapeChars bracket.toList, fun line => regexReplace_escape bracket line⟩

/-- C7: `getProcessedLine` first processes the line's token stream; with a replacement
indentation it returns the replacement concatenated with the processed line minus its
leading whitespace run, measured on the processed line; with no replacement it returns
the processed line unmodified. Concretely, the raw line `(  foo` processes to `  foo`,
whose leading whitespace — absent from the raw line — is what the tab replaces. -/
theorem getProcessedLine_indent_substitution :
    (∀ (config : String → Option RichEditBrackets) (getLineTokens : Nat → List Token)
        (lineNumber : Nat) (newIndentation : String),
      getProcessedLine config getLineTokens lineNumber (some newIndentation)
          = newIndentation
              ++ String.mk
                ((getProcessedLineForTokens config (getLineTokens lineNumber)).toList.drop
                  (getLeadingWhitespace
                    (getProcessedLineForTokens config (getLineTokens lineNumber))).length)
        ∧ getProcessedLine config getLineTokens lineNumber none
            = getProcessedLineForTokens config (getLineTokens lineNumber))
      ∧ getProcessedLine demoConfig indentDemoTokens 1 (some "\t") = "\tfoo" := by
  constructor
  · intro config getLineTokens lineNumber newIndentation
    exact ⟨rfl, rfl⟩
  · decide

/-- C8: each of the four façade operations returns exactly the external rule
evaluator's corresponding predicate applied to the processed line for the given line
number and optional new indentation, with no additional local decision logic. -/
theorem facade_delegates_to_evaluator (p : ProcessedIndentRulesSupport)
    (lineNumber : Nat) (newIndentation : Option String) :
    p.shouldIncrease lineNumber newIndentation
        = p.indentRulesSupport.shouldIncrease
            (getProcessedLine p.config p.getLineTokens lineNumber newIndentation)
      ∧ p.shouldDecrease lineNumber newIndentation
          = p.indentRulesSupport.shouldDecrease
              (getProcessedLine p.config p.getLineTokens lineNumber newIndentation)
      ∧ p.shouldIgnore lineNumber newIndentation
          = p.indentRulesSupport.shouldIgnore
              (getProcessedLine p.config p.getLineTokens lineNumber newIndentation)
      ∧ p.shouldIndentNextLine lineNumber newIndentation
          = p.indentRulesSupport.shouldIndentNextLine
              (getProcessedLine p.config p.getLineTokens lineNumber newIndentation) :=
  ⟨rfl, rfl, rfl, rfl⟩

/-- C9: for every token stream in which no String-, Comment- or RegEx-classified
token's text contains any occurrence of any configured bracket string, processing
returns the original concatenated line content unchanged. -/
theorem sanitize_noop_without_occurrences (config : String → Option RichEditBrackets)
    (tokens : List Token)
    (h : ∀ token ∈ tokens, isTokenTypeToProcess token.tokenType = true →
          ∀ bracket ∈ configuredBrackets config (firstLanguageId tokens),
            occursIn bracket.toList token.text.toList = false) :
    getProcessedLineForTokens config tokens = lineContent tokens := by
  cases hc : config (firstLanguageId tokens) with
  | none => exact getProcessedLineForTokens_config_none config tokens hc
  | some brackets =>
    rw [getProcessedLineForTokens_config_some config tokens brackets hc]
    unfold lineContent
    have hbr : configuredBrackets config (firstLanguageId tokens)
        = openBracketsOf brackets ++ closedBracketsOf brackets := by
      unfold configuredBrackets
      rw [hc]
    refine congrArg String.join (List.map_congr_left ?_)
    intro token htoken
    by_cases hty : isTokenTypeToProcess token.tokenType = true
    · rw [if_pos hty]
      exact removeBracketsFromText_id _ _ _
        (fun bracket hbracket => h token htoken hty bracket (hbr ▸ hbracket))
    · rw [if_neg hty]

/-- Witness for C9: a "demo"-language line whose string token text `ab` holds no
configured bracket (the open bracket sits in an other-classified token) is returned
unchanged. -/
theorem sanitize_noop_without_occurrences_witness :
    (∀ token ∈ noBracketInLiteralLine, isTokenTypeToProcess token.tokenType = true →
        ∀ bracket ∈ configuredBrackets demoConfig (firstLanguageId noBracketInLiteralLine),
          occursIn bracket.toList token.text.toList = false)
      ∧ getProcessedLineForTokens demoConfig noBracketInLiteralLine
          = lineContent noBracketInLiteralLine := by
  have hhyp : ∀ token ∈ noBracketInLiteralLine, isTokenTypeToProcess token.tokenType = true →
      ∀ bracket ∈ configuredBrackets demoConfig (firstLanguageId noBracketInLiteralLine),
        occursIn bracket.toList token.text.toList = false := by
    intro token htoken hty bracket hbracket
    simp only [noBracketInLiteralLine, List.mem_cons, List.not_mem_nil, or_false] at htoken
    rcases htoken with rfl | rfl
    · revert bracket hbracket
      decide
    · exact absurd hty (by decide)
  exact ⟨hhyp, sanitize_noop_without_occurrences demoConfig noBracketInLiteralLine hhyp⟩

/-- C10: the bracket set used for processing is determined solely by the language id of
the token at index 0 and is applied uniformly to every token: two streams that agree on
the first token's language id and on every token's text and classification process
identically, whatever the later tokens' language ids; and when the first token's
language has no bracket configuration the entire stream passes through unprocessed —
concretely, a stream headed by the unconfigured language "plain" keeps a bracketed
"demo"-language string token verbatim even though "demo" has configured brackets. -/
theorem bracket_set_from_first_token_language :
    (∀ (config : String → Option RichEditBrackets) (tokens tokens2 : List Token),
      firstLanguageId tokens = firstLanguageId tokens2 →
      tokens.map (fun token => (token.text, token.tokenType))
          = tokens2.map (fun token => (token.text, token.tokenType)) →
      getProcessedLineForTokens config tokens = getProcessedLineForTokens config tokens2)
      ∧ (∀ (config : String → Option RichEditBrackets) (tokens : List Token),
          config (firstLanguageId tokens) = none →
          getProcessedLineForTokens config tokens = lineContent tokens)
      ∧ getProcessedLineForTokens demoConfig plainThenDemoLine
          = lineContent plainThenDemoLine := by
  refine ⟨?_, ?_, by decide⟩
  · intro config tokens tokens2 hlang hmap
    cases hcfg : config (firstLanguageId tokens2) with
    | none =>
      rw [getProcessedLineForTokens_config_none config tokens (by rw [hlang, hcfg]),
        getProcessedLineForTokens_config_none config tokens2 hcfg]
      unfold lineContent
      have hmap2 := congrArg (List.map (fun p : String × StandardTokenType => p.1)) hmap
      simp only [List.map_map, Function.comp] at hmap2
      exact congrArg String.join hmap2
    | some brackets =>
      rw [getProcessedLineForTokens_config_some config tokens brackets (by rw [hlang, hcfg]),
        getProcessedLineForTokens_config_some config tokens2 brackets hcfg]
      have hmap2 := congrArg (List.map (fun p : String × StandardTokenType =>
        if isTokenTypeToProcess p.2 then
          removeBracketsFromText (openBracketsOf brackets) (closedBracketsOf brackets) p.1
        else p.1)) hmap
      simp only [List.map_map, Function.comp] at hmap2
      exact congrArg String.join hmap2
  · intro config tokens h
    exact getProcessedLineForTokens_config_none config tokens h

/-- Witness for C10: two concrete streams differing only in the second token's language
id process identically, and the concrete "plain"-headed stream passes through raw. -/
theorem bracket_set_from_first_token_language_witness :
    getProcessedLineForTokens demoConfig
        [⟨"s(", StandardTokenType.String, "demo"⟩, ⟨"y", StandardTokenType.Other, "plain"⟩]
      = getProcessedLineForTokens demoConfig
        [⟨"s(", StandardTokenType.String, "demo"⟩, ⟨"y", StandardTokenType.Other, "other"⟩]
      ∧ getProcessedLineForTokens demoConfig plainThenDemoLine
          = lineContent plainThenDemoLine :=
  ⟨bracket_set_from_first_token_language.1 demoConfig _ _ rfl rfl,
   bracket_set_from_first_token_language.2.1 demoConfig plainThenDemoLine (by decide)⟩

/-- C2: `previousLineText` is the empty string unless the range's start line is not
line 1, the scope resolved at the range start begins at offset zero of the start line,
and the scope resolved at the last column of the previous line has the same language
id; when all three hold it equals the processing of the previous line's token stream
sliced to that previous-line scope's character span. -/
theorem previousLineText_characterization (m : ModelCtx) (r : Range)
    (startScope prevScope : ScopedLineTokens)
    (hline : 1 ≤ r.startLineNumber)
    (hS : startScope
      = m.createScopedLineTokens (m.getLineTokens r.startLineNumber) (r.startColumn - 1))
    (hP : prevScope
      = m.createScopedLineTokens (m.getLineTokens (r.startLineNumber - 1))
          (m.getLineMaxColumn (r.startLineNumber - 1) - 1)) :
    (getProcessedContextAroundRange m r).previousLineText =
      if r.startLineNumber ≠ 1 ∧ startScope.firstCharOffset = 0
          ∧ startScope.languageId = prevScope.languageId then
        getProcessedLineForTokens m.config
          (sliceTokens (m.getLineTokens (r.startLineNumber - 1)) prevScope.firstCharOffset
            (prevScope.firstCharOffset + prevScope.lineContent.length))
      else "" := by
  simp only [getProcessedContextAroundRange]
  rw [← hS]
  simp only [getProcessedPreviousLine, ScopedLineTokens.doesScopeStartAtOffsetZero]
  rw [← hP]
  by_cases h1 : r.startLineNumber = 1
  · rw [if_pos (show (r.startLineNumber - 1 == 0) = true by simp [h1]), if_neg (by simp [h1])]
  · rw [if_neg (show ¬(r.startLineNumber - 1 == 0) = true by simp only [beq_iff_eq]; omega)]
    by_cases hoff : startScope.firstCharOffset = 0
    · rw [if_neg (show ¬(!(startScope.firstCharOffset == 0)) = true by simp [hoff])]
      by_cases hlang : startScope.languageId = prevScope.languageId
      · rw [if_neg (show ¬(!(startScope.languageId == prevScope.languageId)) = true by
            simp [hlang]),
          if_pos ⟨h1, hoff, hlang⟩]
      · rw [if_pos (show (!(startScope.languageId == prevScope.languageId)) = true by
            simp [hlang]),
          if_neg (by simp [hlang])]
    · rw [if_pos (show (!(startScope.firstCharOffset == 0)) = true by simp [hoff]),
        if_neg (by simp [hoff])]

/-- Witness for C2: a caret at line 2, column 1 of the demonstration document, whose
scope starts at offset zero and whose language continues on line 1, yields line 1's
processed scope slice. -/
theorem previousLineText_characterization_witness :
    (1 ≤ demoRange.startLineNumber
        ∧ demoScopeLine2
            = demoCtx.createScopedLineTokens (demoCtx.getLineTokens demoRange.startLineNumber)
                (demoRange.startColumn - 1)
        ∧ demoScopeLine1
            = demoCtx.createScopedLineTokens
                (demoCtx.getLineTokens (demoRange.startLineNumber - 1))
                (demoCtx.getLineMaxColumn (demoRange.startLineNumber - 1) - 1))
      ∧ (getProcessedContextAroundRange demoCtx demoRange).previousLineText =
          (if demoRange.startLineNumber ≠ 1 ∧ demoScopeLine2.firstCharOffset = 0
              ∧ demoScopeLine2.languageId = demoScopeLine1.languageId then
            getProcessedLineForTokens demoCtx.config
              (sliceTokens (demoCtx.getLineTokens (demoRange.startLineNumber - 1))
                demoScopeLine1.firstCharOffset
                (demoScopeLine1.firstCharOffset + demoScopeLine1.lineContent.length))
          else "") :=
  ⟨⟨by decide, by decide, by decide⟩,
   previousLineText_characterization demoCtx demoRange demoScopeLine2 demoScopeLine1
     (by decide) (by decide) (by decide)⟩

/-- C3: `afterRangeText` is the processed slice extending to the end of the resolved
scope's content, taken from the start line's token stream starting at the range's start
column when the range is collapsed, and taken from the end line's token stream starting
at the range's end column when the range is non-collapsed. -/
theorem afterRangeText_characterization (m : ModelCtx) (r : Range)
    (startScope : ScopedLineTokens)
    (hS : startScope
      = m.createScopedLineTokens (m.getLineTokens r.startLineNumber) (r.startColumn - 1))
    (hstart : startScope.firstCharOffset ≤ r.startColumn - 1)
    (hend : startScope.firstCharOffset ≤ r.endColumn - 1) :
    (getProcessedContextAroundRange m r).afterRangeText =
      if r.isEmpty then
        getProcessedLineForTokens m.config
          (sliceTokens (m.getLineTokens r.startLineNumber) (r.startColumn - 1)
            (startScope.firstCharOffset + startScope.lineContent.length))
      else
        getProcessedLineForTokens m.config
          (sliceTokens (m.getLineTokens r.endLineNumber) (r.endColumn - 1)
            (startScope.firstCharOffset + startScope.lineContent.length)) := by
  simp only [getProcessedContextAroundRange]
  rw [← hS]
  simp only [getProcessedTextAfterRange]
  by_cases hempty : r.isEmpty = true
  · rw [if_pos hempty, if_pos hempty, if_pos hempty,
      show startScope.firstCharOffset + (r.startColumn - 1 - startScope.firstCharOffset)
        = r.startColumn - 1 by omega]
  · rw [if_neg hempty, if_neg hempty, if_neg hempty,
      show startScope.firstCharOffset + (r.endColumn - 1 - startScope.firstCharOffset)
        = r.endColumn - 1 by omega]

/-- Witness for C3: a non-collapsed selection on line 1 of the demonstration document,
columns 2 to 3, whose after-fragment is the processed slice from column 3 to the end of
the scope on the end line. -/
theorem afterRangeText_characterization_witness :
    (demoScopeLine1
        = demoCtx.createScopedLineTokens
            (demoCtx.getLineTokens demoSelectionRange.startLineNumber)
            (demoSelectionRange.startColumn - 1)
        ∧ demoScopeLine1.firstCharOffset ≤ demoSelectionRange.startColumn - 1
        ∧ demoScopeLine1.firstCharOffset ≤ demoSelectionRange.endColumn - 1)
      ∧ (getProcessedContextAroundRange demoCtx demoSelectionRange).afterRangeText =
          (if demoSelectionRange.isEmpty then
            getProcessedLineForTokens demoCtx.config
              (sliceTokens (demoCtx.getLineTokens demoSelectionRange.startLineNumber)
                (demoSelectionRange.startColumn - 1)
                (demoScopeLine1.firstCharOffset + demoScopeLine1.lineContent.length))
          else
            getProcessedLineForTokens demoCtx.config
              (sliceTokens (demoCtx.getLineTokens demoSelectionRange.endLineNumber)
                (demoSelectionRange.endColumn - 1)
                (demoScopeLine1.firstCharOffset + demoScopeLine1.lineContent.length))) :=
  ⟨⟨by decide, by decide, by decide⟩,
   afterRangeText_characterization demoCtx demoSelectionRange demoScopeLine1
     (by decide) (by decide) (by decide)⟩
